import Mathlib

/-!
Shallow embedding of the nuggit repository's core data model and algorithms:
the Point type system (`src/api/point.go`), the pipe flattener
(`pipes.Flatten`), the runtime `Regex.Bind` action (`src/server/server.go`),
the dependency-graph traversal `PipeStore.ScanDependencies` and the pipe
store transaction `PipeStore.Store` (`src/storage/pipes.go`).

Go machine integers are modelled as `Int` with explicit reduction modulo
2^64 (two's complement) where bitwise operations matter.  Fallible Go
functions returning `error` are modelled with `Option Err` (`none` = nil
error); Go loops whose termination is in question are modelled with an
explicit fuel parameter, `none` meaning the loop has not finished within
the given number of iterations.
-/

/-- Error classes of the repository's status taxonomy (spec section 7); the
`status` package itself is not part of the analysed sources, so errors are
modelled as a class plus the literal message text built by the Go code. -/
inductive ErrClass where
  | invalidArgument
  | notFound
  | failedPrecondition
  | alreadyExists
  | unimplemented
  | internal
deriving DecidableEq, Repr

/-- An error value: a taxonomy class together with the message text. -/
structure Err where
  cls : ErrClass
  msg : String
deriving DecidableEq, Repr

/-! ## Point (`src/api/point.go`)

`type Scalar = string`; the scalar constants are `Bytes = "bytes"`,
`String = "string"`, `Bool = "bool"`, `Int64 = "int64"`,
`Uint64 = "uin64"` (sic, as written in the source) and
`Float64 = "float64"`.  The constant names `String`/`Bool` clash with Lean
builtins, so the constants are inlined as string literals below, spelled
exactly as in the source. -/

/-- A Point: `{Nullable bool; Repeated bool; Scalar Scalar}`. -/
structure Point where
  Nullable : Bool
  Repeated : Bool
  Scalar : String
deriving DecidableEq, Repr

/-- The Go zero value `Point{}`. -/
instance : Inhabited Point := ⟨⟨false, false, ""⟩⟩

/-- `supportedScalars`: the key set of the Go map, including the empty
string ("Same as Bytes") and the misspelled `Uint64` constant `"uin64"`. -/
def supportedScalars : List String :=
  ["", "bytes", "string", "bool", "int64", "uin64", "float64"]

/-- `ValidateScalar`: nil error iff `s` is a key of `supportedScalars`,
otherwise an error wrapping `status.ErrInvalidArgument`. -/
def ValidateScalar (s : String) : Option Err :=
  if s ∈ supportedScalars then none
  else some ⟨.invalidArgument, "scalar type is not supported (" ++ s ++ ")"⟩

/-- `NewPointFromNumber`: Go `int` is 64-bit two's complement, so the bit
tests read the bits of `x mod 2^64`.  Bit 31 sets Nullable, bit 30 sets
Repeated, and the switch on `x & 0x7` selects the scalar (cases 0 and
default leave the zero value `""`). -/
def NewPointFromNumber (x : Int) : Point :=
  let u : Nat := (x % ((2 : Int) ^ 64)).toNat
  { Nullable := (u &&& (1 <<< 31)) != 0
    Repeated := (u &&& (1 <<< 30)) != 0
    Scalar :=
      match u &&& 0x7 with
      | 0 => ""
      | 1 => "string"
      | 2 => "bool"
      | 3 => "int64"
      | 4 => "uin64"
      | 5 => "float64"
      | _ => "" }

/-- `Point.AsNumber`: builds the integer by or-ing bit 31 (Nullable),
bit 30 (Repeated), and the scalar code from the switch on `t.Scalar`
(`""` and `"bytes"` give no bits; the default case gives no bits). -/
def Point.AsNumber (t : Point) : Int :=
  let x : Nat := 0
  let x := if t.Nullable then x ||| (1 <<< 31) else x
  let x := if t.Repeated then x ||| (1 <<< 30) else x
  let x :=
    if t.Scalar = "" ∨ t.Scalar = "bytes" then x
    else if t.Scalar = "string" then x ||| 1
    else if t.Scalar = "bool" then x ||| 2
    else if t.Scalar = "int64" then x ||| 3
    else if t.Scalar = "uin64" then x ||| 4
    else if t.Scalar = "float64" then x ||| 5
    else x
  (x : Int)

/-- The scalar switch of `Point.String`: note the source's `case Bool`
branch writes `"bytes"`, and `case Uint64` (the constant `"uin64"`)
writes `"uint64"`; the default branch writes `"bytes"`. -/
def scalarText (s : String) : String :=
  if s = "" ∨ s = "bytes" then "bytes"
  else if s = "string" then "string"
  else if s = "bool" then "bytes"
  else if s = "int64" then "int64"
  else if s = "uin64" then "uint64"
  else if s = "float64" then "float64"
  else "bytes"

/-- `(*Point).String`: the receiver is a pointer, modelled as
`Option Point` (`none` = nil, rendered `"bytes"`); otherwise a leading
`*` if Nullable, `[]` if Repeated, then the scalar text. -/
def PointString : Option Point → String
  | none => "bytes"
  | some p =>
    (if p.Nullable then "*" else "") ++
    (if p.Repeated then "[]" else "") ++
    scalarText p.Scalar

/-! ## Pipes and the flattener (`pipes.Flatten`)

The `nuggit.Action`, `nuggit.Pipe` and `pipes.Index` declarations are not
among the analysed source files; they are modelled from the spec (sections
3 and 4.3).  `pipes.Flatten` itself is translated from the source. -/

namespace nuggit

/-- Modelled from the spec: `nuggit.Action` is not under src/; spec section 3
defines an Action as a kind string plus a string-to-string argument map, with
`GetAction` returning the kind and `GetOrDefaultArg` returning the named
argument or the empty string when absent. -/
structure Action where
  action : String
  args : List (String × String)
deriving DecidableEq, Repr

/-- `Action.GetAction` returns the kind string. -/
def Action.GetAction (a : Action) : String := a.action

/-- `Action.GetOrDefaultArg` returns the named argument, defaulting to "". -/
def Action.GetOrDefaultArg (a : Action) (key : String) : String :=
  (a.args.lookup key).getD ""

/-- Modelled from the spec: `nuggit.Pipe` is not under src/; spec section 3
defines a Pipe as an ordered sequence of Actions plus a declared output
Point. -/
structure Pipe where
  Actions : List Action
  PipePoint : Point
deriving DecidableEq, Repr

/-- The Go zero value `nuggit.Pipe{}`. -/
instance : Inhabited Pipe := ⟨⟨[], default⟩⟩

/-- Modelled from the spec: `pipes.Index` is not under src/; spec section 2
describes it as a catalog resolving a pipe name to its unique current
definition, and section 4.3 requires `GetUniquePipe` to report failure when
no pipe or more than one pipe matches the name.  Modelled as an association
list of (name, pipe) entries. -/
structure Index where
  pipes : List (String × Pipe)
deriving DecidableEq, Repr

/-- `Index.GetUniquePipe`: the pipe registered under `name`, or `none` when
the name resolves to zero or several pipes. -/
def Index.GetUniquePipe (idx : Index) (name : String) : Option Pipe :=
  match idx.pipes.filter (fun e => e.1 = name) with
  | [e] => some e.2
  | _ => none

/-- The loop body of `pipes.Flatten`, with an explicit fuel bound on the
number of iterations (`none` = the loop has not finished in `fuel` steps).
At index `i`: a non-"pipe" action advances `i`; a "pipe" action is resolved
with `GetUniquePipe` — failure returns the error, success replaces the
action in place (`slices.Insert(slices.Delete(actions, i, i+1), i,
rp.Actions...)`) and rescans from the same `i`. -/
def flattenActions (idx : Index) : Nat → Nat → List Action → Option (Except Err (List Action))
  | 0, _, _ => none
  | fuel + 1, i, actions =>
    if h : i < actions.length then
      let a := actions.get ⟨i, h⟩
      if a.GetAction ≠ "pipe" then
        flattenActions idx fuel (i + 1) actions
      else
        match idx.GetUniquePipe (a.GetOrDefaultArg "name") with
        | none =>
          some (.error ⟨.invalidArgument,
            "referenced pipe not found or is not unique (" ++
              a.GetOrDefaultArg "name" ++ ")"⟩)
        | some rp =>
          flattenActions idx fuel i
            (actions.take i ++ rp.Actions ++ actions.drop (i + 1))
    else
      some (.ok actions)

/-- `pipes.Flatten`: clones the input's actions, runs the loop, and on
success returns a new Pipe with the flattened actions and the input's
Point; on failure returns the zero `nuggit.Pipe{}` and the error. -/
def Flatten (fuel : Nat) (idx : Index) (pipe : Pipe) : Option (Pipe × Option Err) :=
  match flattenActions idx fuel 0 pipe.Actions with
  | none => none
  | some (.error e) => some (default, some e)
  | some (.ok actions) => some ({ Actions := actions, PipePoint := pipe.PipePoint }, none)

/-- `Flatten` evaluates to result `r`: the loop terminates with some fuel
bound and returns `r`. -/
def FlattenEval (idx : Index) (pipe : Pipe) (r : Pipe × Option Err) : Prop :=
  ∃ fuel, Flatten fuel idx pipe = some r

/-- A reference action of kind "pipe" naming the pipe to inline. -/
def pipeRef (name : String) : Action := ⟨"pipe", [("name", name)]⟩

/-- A pipe whose single action references itself by name. -/
def cyclicPipe : Pipe := ⟨[pipeRef "Q"], default⟩

/-- An index in which "Q" resolves uniquely to `cyclicPipe`. -/
def cyclicIndex : Index := ⟨[("Q", cyclicPipe)]⟩

end nuggit

/-! ## Runtime Bind (`src/server/server.go`, package v1alpha)

`runtime.Edge` is `{SrcField string; Result any}`; the `any`-typed result
is modelled by `GoValue`, covering the dynamic types the Regex action's
type assertions inspect. -/

/-- A dynamically typed runtime value flowing along an Edge: a string, a
`*Regex` configuration (carrying its Pattern), or any other type. -/
inductive GoValue where
  | stringVal (s : String)
  | regexVal (pattern : String)
  | otherVal
deriving DecidableEq, Repr

/-- `runtime.Edge`: one named upstream output and its value. -/
structure Edge where
  SrcField : String
  Result : GoValue
deriving DecidableEq, Repr

/-- The Regex action's configuration: `{Pattern string}`. -/
structure Regex where
  Pattern : String
deriving DecidableEq, Repr

/-- `(*Regex).Bind`: a switch on `e.SrcField`.  `"pattern"` assigns
`e.Result.(string)` to Pattern; `""` replaces the whole configuration with
`*e.Result.(*Regex)`; any other field returns the "not found" error and
performs no assignment.  The receiver is mutated in place in Go, so the
model returns the updated configuration together with the error (a failed
type assertion panics in Go; it is modelled as an internal error with the
configuration unchanged — no claim depends on that branch). -/
def Regex.Bind (x : Regex) (e : Edge) : Regex × Option Err :=
  if e.SrcField = "pattern" then
    match e.Result with
    | .stringVal s => (⟨s⟩, none)
    | _ => (x, some ⟨.internal, "interface conversion panic"⟩)
  else if e.SrcField = "" then
    match e.Result with
    | .regexVal p => (⟨p⟩, none)
    | _ => (x, some ⟨.internal, "interface conversion panic"⟩)
  else
    (x, some ⟨.notFound, "not found: " ++ e.SrcField⟩)

/-! ## Dependency traversal (`PipeStore.ScanDependencies`, `src/storage/pipes.go`)

Pipes are identified by their `integrity.Key` (name, digest); the
`integrity` package is not under src/, and spec section 3 defines the
identity as the NameDigest pair.  The SQL query returning the direct
dependencies of a pipe is modelled as a function from a key to the list of
row keys the query returns, in row order. -/

/-- A (name, digest) identity pair. -/
abbrev NameDigest := String × String

/-- The inner `for rows.Next()` loop of `ScanDependencies`: each row is
yielded unconditionally, then enqueued only if its key is not in the seen
set, and finally marked seen.  Returns (yielded rows, final queue, final
seen set). -/
def scanRows : List NameDigest → List NameDigest → List NameDigest →
    List NameDigest × List NameDigest × List NameDigest
  | [], queue, seen => ([], queue, seen)
  | p :: rows, queue, seen =>
    let queue' := if p ∈ seen then queue else queue ++ [p]
    let seen' := if p ∈ seen then seen else seen ++ [p]
    let r := scanRows rows queue' seen'
    (p :: r.1, r.2.1, r.2.2)

/-- The outer `for len(queue) > 0` loop of `ScanDependencies`, with fuel
bounding the number of dequeue iterations (`none` = not finished within
`fuel` iterations).  Returns the full yielded sequence. -/
def scanLoop (deps : NameDigest → List NameDigest) (fuel : Nat)
    (queue seen : List NameDigest) : Option (List NameDigest) :=
  match queue with
  | [] => some []
  | p :: queue' =>
    match fuel with
    | 0 => none
    | Nat.succ fuel' =>
      let r := scanRows (deps p) queue' seen
      match scanLoop deps fuel' r.2.1 r.2.2 with
      | none => none
      | some rest => some (r.1 ++ rest)

/-- `PipeStore.ScanDependencies`: breadth-first traversal seeded with
`queue = [start]` and an empty seen set. -/
def ScanDependencies (deps : NameDigest → List NameDigest) (fuel : Nat)
    (start : NameDigest) : Option (List NameDigest) :=
  scanLoop deps fuel [start] []

/-- The key of pipe A in the two-pipe cyclic dependency graph. -/
def keyA : NameDigest := ("A", "da")

/-- The key of pipe B in the two-pipe cyclic dependency graph. -/
def keyB : NameDigest := ("B", "db")

/-- The dependency graph with exactly the edges A→B and B→A. -/
def cycleDeps (k : NameDigest) : List NameDigest :=
  if k = keyA then [keyB] else if k = keyB then [keyA] else []

/-! ## Pipe store transaction (`PipeStore.Store`, `src/storage/pipes.go`)

The SQL engine, the `api.Pipe` getters and the helpers
`marshalNullableJSONString`, `handleExecErrors`, `alreadyExistsFunc` and
`pipes.Deps` are not under src/; the database state they act on is
modelled from the spec (sections 3, 4.4 and 7): a Pipes table keyed by
(Name, Digest), a set of disabled (name, digest) resource labels, and a
PipeDependencies edge table.  External statement failures (connection or
engine errors) are modelled by an environment `env` telling, per executed
statement, whether it fails. -/

/-- A row of the Pipes table: `(Name, Digest, TypeNumber, Spec)`, with the
marshalled Spec column modelled by the pipe value itself. -/
structure PipeRow where
  Name : String
  Digest : String
  TypeNumber : Int
  Spec : nuggit.Pipe
deriving DecidableEq, Repr

/-- The database state touched by `PipeStore.Store`. -/
structure DB where
  pipes : List PipeRow
  disabledLabels : List NameDigest
  pipeDeps : List (NameDigest × NameDigest)
deriving DecidableEq, Repr

/-- Modelled from the spec: `api.Pipe` is not under src/; it carries the
pipe spec together with its NameDigest identity (`GetName`, `GetDigest`,
`GetPoint`, `GetPipe`). -/
structure ApiPipe where
  name : String
  digest : String
  pipe : nuggit.Pipe
deriving DecidableEq, Repr

/-- Modelled from the spec: `pipes.Deps` is not under src/; spec section
4.4 records a dependency edge for every nested "pipe" action reference in
the unflattened action sequence, identified by name and digest. -/
def Deps (p : nuggit.Pipe) : List NameDigest :=
  (p.Actions.filter (fun a => a.GetAction = "pipe")).map
    (fun a => (a.GetOrDefaultArg "name", a.GetOrDefaultArg "digest"))

/-- Whether the Pipes table has a row with the given name and digest. -/
def hasPipeRow (db : DB) (nd : NameDigest) : Bool :=
  db.pipes.any (fun r => r.Name == nd.1 && r.Digest == nd.2)

/-- The "disable old pipes by name" statement: `INSERT OR IGNORE` of a
'disabled' label for every resource of a pipe row named `name`. -/
def disableByName (db : DB) (name : String) : DB :=
  { db with disabledLabels :=
      db.pipes.foldl (fun acc r =>
        if r.Name = name ∧ (r.Name, r.Digest) ∉ acc then acc ++ [(r.Name, r.Digest)]
        else acc) db.disabledLabels }

/-- One dependency-edge `INSERT OR IGNORE ... SELECT ... JOIN`: the edge is
added only when both endpoint rows exist and the edge is not already
present. -/
def insertDep (db : DB) (src dst : NameDigest) : DB :=
  if hasPipeRow db src ∧ hasPipeRow db dst ∧ (src, dst) ∉ db.pipeDeps then
    { db with pipeDeps := db.pipeDeps ++ [(src, dst)] }
  else db

/-- The statement-failure error produced by the modelled SQL engine. -/
def execErr : Err := ⟨.internal, "exec failed"⟩

/-- `PipeStore.storePipeDeps`: one `INSERT OR IGNORE` per dependency of
the stored pipe, threading the statement counter `k` through `env`;
returns the transaction state, the first error, and the next counter. -/
def storePipeDeps (env : Nat → Bool) : Nat → DB → NameDigest →
    List NameDigest → (DB × Option Err) × Nat
  | k, tx, _, [] => ((tx, none), k)
  | k, tx, src, d :: ds =>
    if env k then ((tx, some execErr), k)
    else storePipeDeps env (k + 1) (insertDep tx src d) src ds

/-- `PipeStore.Store` as one transaction: statement 0 disables old pipes
by name, statement 1 inserts the (Name, Digest, TypeNumber, Spec) row —
failing with an AlreadyExists-class error on a duplicate (name, digest)
per `handleExecErrors`/`alreadyExistsFunc` (modelled from the spec, section
4.4) — then one statement per dependency edge, a statement deleting the
'disabled' label of name@digest, and the commit.  Any failure returns the
original database unchanged (the deferred `tx.Rollback`); only the final
commit publishes the transaction state. -/
def PipeStore.Store (env : Nat → Bool) (db : DB) (p : ApiPipe) : DB × Option Err :=
  if env 0 then (db, some execErr) else
  let tx1 := disableByName db p.name
  if env 1 then (db, some execErr) else
  if hasPipeRow tx1 (p.name, p.digest) then
    (db, some ⟨.alreadyExists, "pipe already exists: " ++ p.name ++ "@" ++ p.digest⟩)
  else
  let tx2 := { tx1 with
    pipes := tx1.pipes ++ [⟨p.name, p.digest, p.pipe.PipePoint.AsNumber, p.pipe⟩] }
  match storePipeDeps env 2 tx2 (p.name, p.digest) (Deps p.pipe) with
  | ((_, some e), _) => (db, some e)
  | ((tx3, none), k) =>
    if env k then (db, some execErr) else
    let tx4 := { tx3 with
      disabledLabels := tx3.disabledLabels.filter
        (fun nd => ¬(nd.1 = p.name ∧ nd.2 = p.digest)) }
    if env (k + 1) then (db, some execErr) else
    (tx4, none)

/-! ## Heap model of `pipes.Flatten` (aliasing)

To state that `Flatten` never mutates its input, the Go slices are given
an explicit store: a heap of action arrays addressed by reference.
`slices.Clone` allocates a fresh array; `slices.Delete`/`slices.Insert`
write the array they are given in place.  `Flatten` works exclusively on
the reference returned by the clone. -/

/-- A heap of action arrays; a reference is an index into `arrays`. -/
structure Heap where
  arrays : List (List nuggit.Action)
deriving DecidableEq, Repr

/-- Dereference: the array stored at `r` (empty when dangling). -/
def Heap.get (h : Heap) (r : Nat) : List nuggit.Action :=
  h.arrays[r]?.getD []

/-- In-place update of the array at `r`. -/
def Heap.set (h : Heap) (r : Nat) (xs : List nuggit.Action) : Heap :=
  ⟨h.arrays.set r xs⟩

/-- Allocation of a fresh array, returning its reference. -/
def Heap.alloc (h : Heap) (xs : List nuggit.Action) : Heap × Nat :=
  (⟨h.arrays ++ [xs]⟩, h.arrays.length)

/-- The `pipes.Flatten` loop over the heap: identical control flow to
`flattenActions`, with the in-place
`slices.Insert(slices.Delete(...))` step writing the working array `r`
through the heap. -/
def flattenActionsH (idx : nuggit.Index) : Nat → Nat → Heap → Nat →
    Option (Heap × Except Err Nat)
  | 0, _, _, _ => none
  | fuel + 1, i, h, r =>
    let acts := h.get r
    if hlt : i < acts.length then
      let a := acts.get ⟨i, hlt⟩
      if a.GetAction ≠ "pipe" then
        flattenActionsH idx fuel (i + 1) h r
      else
        match idx.GetUniquePipe (a.GetOrDefaultArg "name") with
        | none =>
          some (h, .error ⟨.invalidArgument,
            "referenced pipe not found or is not unique (" ++
              a.GetOrDefaultArg "name" ++ ")"⟩)
        | some rp =>
          flattenActionsH idx fuel i
            (h.set r (acts.take i ++ rp.Actions ++ acts.drop (i + 1))) r
    else
      some (h, .ok r)

/-- `pipes.Flatten` over the heap: `actions := slices.Clone(pipe.Actions)`
allocates a fresh array, the loop runs on that reference only, and the
result pipe is read back from it (zero pipe on failure). -/
def FlattenH (fuel : Nat) (idx : nuggit.Index) (h : Heap) (r : Nat)
    (pt : Point) : Option (Heap × nuggit.Pipe × Option Err) :=
  let c := h.alloc (h.get r)
  match flattenActionsH idx fuel 0 c.1 c.2 with
  | none => none
  | some (h2, .error e) => some (h2, default, some e)
  | some (h2, .ok r2) => some (h2, ⟨h2.get r2, pt⟩, none)

lemma land_pow_ne_zero (u i : Nat) : ((u &&& (1 <<< i)) != 0) = u.testBit i := by
  rw [Nat.one_shiftLeft, Nat.and_two_pow]
  cases h : u.testBit i <;> simp [h, Nat.pos_pow_of_pos]

lemma land_seven (u : Nat) : u &&& 0x7 = u % 8 := by
  have h := Nat.and_pow_two_sub_one_eq_mod u 3
  norm_num at h
  exact h

/-- C2 (amended): decoding the integer encoding is the identity on every
Point whose scalar is the empty string or one of the five literals that
`AsNumber` maps to a nonzero code — the code's own scalar strings,
including the misspelled "uin64".  The literal "bytes" is excluded: it
encodes to code 0 and decodes to the equivalent default "" (see the
counterexample). -/
theorem point_roundtrip_amended (p : Point)
    (hs : p.Scalar ∈ ["", "string", "bool", "int64", "uin64", "float64"]) :
    NewPointFromNumber p.AsNumber = p := by
  obtain ⟨n, r, s⟩ := p
  simp only [List.mem_cons, List.not_mem_nil, or_false] at hs
  rcases hs with rfl | rfl | rfl | rfl | rfl | rfl <;> cases n <;> cases r <;> decide

/-- C10: `NewPointFromNumber` is total over `Int` and depends only on bit
31, bit 30 and the low 3 bits of the 64-bit two's-complement
representation; the unassigned scalar codes 6 and 7 decode to the default
"" (bytes) scalar, and distinct integers (8 and 0) decode to equal
Points. -/
theorem new_point_from_number_bit_mask (x y : Int)
    (h31 : (x % ((2 : Int) ^ 64)).toNat.testBit 31 = (y % ((2 : Int) ^ 64)).toNat.testBit 31)
    (h30 : (x % ((2 : Int) ^ 64)).toNat.testBit 30 = (y % ((2 : Int) ^ 64)).toNat.testBit 30)
    (hlow : (x % ((2 : Int) ^ 64)).toNat % 8 = (y % ((2 : Int) ^ 64)).toNat % 8) :
    NewPointFromNumber x = NewPointFromNumber y ∧
    (∀ z : Int, (z % ((2 : Int) ^ 64)).toNat % 8 = 6 ∨ (z % ((2 : Int) ^ 64)).toNat % 8 = 7 →
      (NewPointFromNumber z).Scalar = "") ∧
    (NewPointFromNumber 8 = NewPointFromNumber 0 ∧ (8 : Int) ≠ 0) := by
  refine ⟨?_, ?_, by decide⟩
  · simp only [NewPointFromNumber, Point.mk.injEq]
    refine ⟨?_, ?_, ?_⟩
    · rw [land_pow_ne_zero, land_pow_ne_zero, h31]
    · rw [land_pow_ne_zero, land_pow_ne_zero, h30]
    · rw [land_seven, land_seven, hlow]
  · intro z hz
    simp only [NewPointFromNumber]
    rw [land_seven]
    rcases hz with h | h <;> rw [h]

lemma flattenActions_step_skip (idx : nuggit.Index) (fuel i : Nat)
    (acts : List nuggit.Action) (h : i < acts.length)
    (hskip : (acts.get ⟨i, h⟩).GetAction ≠ "pipe") :
    nuggit.flattenActions idx (fuel + 1) i acts =
      nuggit.flattenActions idx fuel (i + 1) acts := by
  conv_lhs => rw [nuggit.flattenActions]
  rw [dif_pos h]
  simp only [if_pos hskip]

lemma flattenActions_step_expand (idx : nuggit.Index) (fuel i : Nat)
    (acts : List nuggit.Action) (h : i < acts.length)
    (hpipe : (acts.get ⟨i, h⟩).GetAction = "pipe") (rp : nuggit.Pipe)
    (hrp : idx.GetUniquePipe ((acts.get ⟨i, h⟩).GetOrDefaultArg "name") = some rp) :
    nuggit.flattenActions idx (fuel + 1) i acts =
      nuggit.flattenActions idx fuel i (acts.take i ++ rp.Actions ++ acts.drop (i + 1)) := by
  conv_lhs => rw [nuggit.flattenActions]
  rw [dif_pos h]
  simp only [if_neg (not_not_intro hpipe), hrp]

lemma flattenActions_done (idx : nuggit.Index) (fuel i : Nat)
    (acts : List nuggit.Action) (h : ¬ i < acts.length) :
    nuggit.flattenActions idx (fuel + 1) i acts = some (.ok acts) := by
  conv_lhs => rw [nuggit.flattenActions]
  rw [dif_neg h]


/-- C5: for P = [A, pipeRef "Q", B] with the index resolving "Q" uniquely
to the pipe [C, D] (all of A, B, C, D non-reference actions), `Flatten`
terminates and returns actions [A, C, D, B] with P's Point preserved — the
reference action is replaced in place and the inserted actions are
rescanned. -/
theorem flatten_inlines_referenced_pipe (A B C D : nuggit.Action) (pt qpt : Point)
    (idx : nuggit.Index)
    (hA : A.GetAction ≠ "pipe") (hB : B.GetAction ≠ "pipe")
    (hC : C.GetAction ≠ "pipe") (hD : D.GetAction ≠ "pipe")
    (hQ : idx.GetUniquePipe "Q" = some ⟨[C, D], qpt⟩) :
    nuggit.FlattenEval idx ⟨[A, nuggit.pipeRef "Q", B], pt⟩ (⟨[A, C, D, B], pt⟩, none) := by
  refine ⟨6, ?_⟩
  have s1 : nuggit.flattenActions idx 6 0 [A, nuggit.pipeRef "Q", B] =
      nuggit.flattenActions idx 5 1 [A, nuggit.pipeRef "Q", B] :=
    flattenActions_step_skip idx 5 0 [A, nuggit.pipeRef "Q", B] (by norm_num) hA
  have s2 : nuggit.flattenActions idx 5 1 [A, nuggit.pipeRef "Q", B] =
      nuggit.flattenActions idx 4 1 [A, C, D, B] :=
    flattenActions_step_expand idx 4 1 [A, nuggit.pipeRef "Q", B] (by norm_num) rfl ⟨[C, D], qpt⟩ hQ
  have s3 : nuggit.flattenActions idx 4 1 [A, C, D, B] =
      nuggit.flattenActions idx 3 2 [A, C, D, B] :=
    flattenActions_step_skip idx 3 1 [A, C, D, B] (by norm_num) hC
  have s4 : nuggit.flattenActions idx 3 2 [A, C, D, B] =
      nuggit.flattenActions idx 2 3 [A, C, D, B] :=
    flattenActions_step_skip idx 2 2 [A, C, D, B] (by norm_num) hD
  have s5 : nuggit.flattenActions idx 2 3 [A, C, D, B] =
      nuggit.flattenActions idx 1 4 [A, C, D, B] :=
    flattenActions_step_skip idx 1 3 [A, C, D, B] (by norm_num) hB
  have s6 : nuggit.flattenActions idx 1 4 [A, C, D, B] = some (.ok [A, C, D, B]) :=
    flattenActions_done idx 0 4 [A, C, D, B] (by norm_num)
  have e := s1.trans (s2.trans (s3.trans (s4.trans (s5.trans s6))))
  unfold nuggit.Flatten
  rw [show (⟨[A, nuggit.pipeRef "Q", B], pt⟩ : nuggit.Pipe).Actions =
    [A, nuggit.pipeRef "Q", B] from rfl, e]

/-- C1 (code evaluated at the failing input): for the self-referencing
pipe Q whose index entry resolves "Q" to Q itself, the `Flatten` loop
never terminates — for every iteration budget it runs out of fuel, because
the expansion step maps the action list [pipeRef "Q"] to itself at an
unchanged position.  The code has no cycle detection and never produces
the FailedPrecondition cyclic-reference error the claim requires. -/
theorem flatten_self_reference_never_terminates :
    ∀ fuel, nuggit.Flatten fuel nuggit.cyclicIndex nuggit.cyclicPipe = none := by
  have h : ∀ fuel, nuggit.flattenActions nuggit.cyclicIndex fuel 0 [nuggit.pipeRef "Q"] = none := by
    intro fuel
    induction fuel with
    | zero => rfl
    | succ n ih => exact ih
  intro fuel
  unfold nuggit.Flatten
  rw [show nuggit.cyclicPipe.Actions = [nuggit.pipeRef "Q"] from rfl, h fuel]

/-- C4 (counterexample): on the dependency graph with exactly the edges
A→B and B→A, `ScanDependencies(A)` terminates but yields the sequence
[B, A, B] — B is yielded twice, not exactly once, because every row is
yielded before the seen-set check and the root A is never pre-seeded into
the seen set. -/
theorem scan_dependencies_cycle_duplicate_yield :
    ScanDependencies cycleDeps 10 keyA = some [keyB, keyA, keyB] ∧
    List.count keyB [keyB, keyA, keyB] ≠ 1 := by decide

/-- C4 (amended): on the two-edge cycle A→B, B→A the traversal still
terminates (three dequeue iterations suffice for any larger fuel bound)
and yields every transitively referenced pipe at least once: the exact
yield sequence is [B, A, B]. -/
theorem scan_dependencies_cycle_terminates (fuel : Nat) :
    ScanDependencies cycleDeps (fuel + 3) keyA = some [keyB, keyA, keyB] := by
  have h1 : ScanDependencies cycleDeps (fuel + 3) keyA
      = match scanLoop cycleDeps (fuel + 2) [keyB] [keyB] with
        | none => none
        | some rest => some ([keyB] ++ rest) := rfl
  have h2 : scanLoop cycleDeps (fuel + 2) [keyB] [keyB]
      = match scanLoop cycleDeps (fuel + 1) [keyA] [keyB, keyA] with
        | none => none
        | some rest => some ([keyA] ++ rest) := rfl
  have h3 : scanLoop cycleDeps (fuel + 1) [keyA] [keyB, keyA]
      = match scanLoop cycleDeps fuel [] [keyB, keyA] with
        | none => none
        | some rest => some ([keyB] ++ rest) := rfl
  have h4 : scanLoop cycleDeps fuel [] [keyB, keyA] = some [] := by cases fuel <;> rfl
  rw [h1, h2, h3, h4]
  rfl

/-- C8: binding an Edge whose SrcField is neither "pattern" nor the empty
field fails with the NotFound-class "not found" error and leaves the Regex
action's configuration unchanged (the Regex action is the only Bind
implementation among the analysed sources; the NotFound classification of
its "not found:" error follows the spec's taxonomy, section 7). -/
theorem regex_bind_unknown_field (x : Regex) (e : Edge)
    (h1 : e.SrcField ≠ "pattern") (h2 : e.SrcField ≠ "") :
    x.Bind e = (x, some ⟨.notFound, "not found: " ++ e.SrcField⟩) := by
  unfold Regex.Bind
  rw [if_neg h1, if_neg h2]

/-- Witness for C8 at the concrete edge {SrcField: "bogus"}. -/
theorem regex_bind_unknown_field_witness :
    Regex.Bind ⟨"abc"⟩ ⟨"bogus", .otherVal⟩ =
      (⟨"abc"⟩, some ⟨.notFound, "not found: bogus"⟩) :=
  regex_bind_unknown_field ⟨"abc"⟩ ⟨"bogus", .otherVal⟩ (by decide) (by decide)

lemma heap_get_set_ne (h : Heap) (r s : Nat) (xs : List nuggit.Action) (hne : s ≠ r) :
    (h.set r xs).get s = h.get s := by
  unfold Heap.get Heap.set
  rw [List.getElem?_set_ne (Ne.symm hne)]

lemma heap_get_alloc (h : Heap) (r : Nat) (xs : List nuggit.Action)
    (hr : r < h.arrays.length) : (h.alloc xs).1.get r = h.get r := by
  unfold Heap.get Heap.alloc
  rw [List.getElem?_append]
  simp [hr]

lemma flattenActionsH_frame (idx : nuggit.Index) :
    ∀ fuel i h r res, flattenActionsH idx fuel i h r = some res →
      ∀ s, s ≠ r → res.1.get s = h.get s := by
  intro fuel
  induction fuel with
  | zero =>
    intro i h r res hres s hs
    exact absurd hres (by rw [flattenActionsH]; exact Option.noConfusion)
  | succ n ih =>
    intro i h r res hres s hs
    rw [flattenActionsH] at hres
    dsimp only at hres
    split at hres
    · split at hres
      · exact ih _ _ _ _ hres s hs
      · split at hres
        · cases hres
          rfl
        · rw [ih _ _ _ _ hres s hs, heap_get_set_ne _ _ _ _ hs]
    · cases hres
      rfl

/-- C9: `Flatten` never mutates its input: in the heap model the input
pipe's action array is untouched whenever the call returns — the loop
writes only the array freshly allocated by `slices.Clone` — and on failure
the zero Pipe is returned. -/
theorem flatten_does_not_mutate_input (fuel : Nat) (idx : nuggit.Index) (h : Heap)
    (r : Nat) (pt : Point) (out : Heap × nuggit.Pipe × Option Err)
    (hr : r < h.arrays.length) (hout : FlattenH fuel idx h r pt = some out) :
    out.1.get r = h.get r ∧ (out.2.2.isSome → out.2.1 = default) := by
  unfold FlattenH at hout
  dsimp only at hout
  have hne : r ≠ (h.alloc (h.get r)).2 := Nat.ne_of_lt hr
  split at hout
  · exact absurd hout Option.noConfusion
  case h_2 h2 e heq =>
    cases hout
    refine ⟨?_, fun _ => rfl⟩
    rw [flattenActionsH_frame idx _ _ _ _ _ heq r hne]
    exact heap_get_alloc h r _ hr
  case h_3 h2 r2 heq =>
    cases hout
    refine ⟨?_, by simp⟩
    rw [flattenActionsH_frame idx _ _ _ _ _ heq r hne]
    exact heap_get_alloc h r _ hr

lemma pipe_store_db_unchanged_or_ok (env : Nat → Bool) (db : DB) (p : ApiPipe) :
    (PipeStore.Store env db p).1 = db ∨ (PipeStore.Store env db p).2 = none := by
  unfold PipeStore.Store
  dsimp only
  split
  · exact Or.inl rfl
  split
  · exact Or.inl rfl
  split
  · exact Or.inl rfl
  split
  · exact Or.inl rfl
  split
  · exact Or.inl rfl
  split
  · exact Or.inl rfl
  · exact Or.inr rfl

/-- C6: `PipeStore.Store` is atomic — whenever it returns an error (any
statement of the transaction failing, at any position), the database is
returned unchanged — and, absent injected failures, inserting a pipe whose
(name, digest) already has a row fails with an AlreadyExists-class
error. -/
theorem pipe_store_atomic_and_duplicate (env : Nat → Bool) (db : DB) (p : ApiPipe) :
    ((PipeStore.Store env db p).2.isSome → (PipeStore.Store env db p).1 = db) ∧
    ((∀ k, env k = false) → hasPipeRow db (p.name, p.digest) = true →
      (PipeStore.Store env db p).1 = db ∧
      ∃ m, (PipeStore.Store env db p).2 = some ⟨.alreadyExists, m⟩) := by
  constructor
  · intro hsome
    rcases pipe_store_db_unchanged_or_ok env db p with h | h
    · exact h
    · rw [h] at hsome
      exact absurd hsome (by simp)
  · intro henv hdup
    have hdup' : hasPipeRow (disableByName db p.name) (p.name, p.digest) = true := hdup
    unfold PipeStore.Store
    simp only [henv, Bool.false_eq_true, if_false, hdup', if_true]
    exact ⟨trivial, _, rfl⟩

/-- C2 (counterexample): the round-trip fails at the valid Point with
scalar "bytes": it encodes to 0 and decodes to the Point with the empty
default scalar, which is a different Point value. -/
theorem point_roundtrip_bytes_counterexample :
    NewPointFromNumber (Point.AsNumber ⟨false, false, "bytes"⟩) ≠ ⟨false, false, "bytes"⟩ := by
  decide

/-- Witness for C2 (amended) at the concrete Point {nullable, int64}. -/
theorem point_roundtrip_amended_witness :
    NewPointFromNumber (Point.AsNumber ⟨true, false, "int64"⟩) = ⟨true, false, "int64"⟩ :=
  point_roundtrip_amended ⟨true, false, "int64"⟩ (by decide)

/-- C3 (code evaluated at the failing input): `ValidateScalar` rejects
the listed scalar name "uint64" with the InvalidArgument error and accepts
the misspelled "uin64" (the source's `Uint64` constant), while accepting
the empty string and the other five listed scalars.  The claim's list is
the intended one: the constant is named `Uint64` and the source's own
`String` method renders it as "uint64". -/
theorem validate_scalar_uint64_typo :
    ValidateScalar "uint64" = some ⟨.invalidArgument, "scalar type is not supported (uint64)"⟩ ∧
    ValidateScalar "uin64" = none ∧
    ValidateScalar "" = none ∧ ValidateScalar "bytes" = none ∧
    ValidateScalar "string" = none ∧ ValidateScalar "bool" = none ∧
    ValidateScalar "int64" = none ∧ ValidateScalar "float64" = none := by
  decide

/-- C7 (code evaluated at the failing input): the canonical string of a
bool-scalar Point is "bytes", not "bool" — the `case Bool` branch of
`(*Point).String` writes "bytes", colliding with the bytes scalar's
rendering (the spec itself flags this collision as a likely defect). -/
theorem point_string_bool_renders_bytes :
    PointString (some ⟨false, false, "bool"⟩) = "bytes" ∧
    PointString (some ⟨true, true, "bool"⟩) = "*[]bytes" ∧
    "bytes" ≠ "bool" := by
  decide

/-- Witness for C10: 16 and 0 agree on the decoded bits, and 14 has
scalar code 6. -/
theorem new_point_from_number_bit_mask_witness :
    NewPointFromNumber 16 = NewPointFromNumber 0 ∧
    (NewPointFromNumber 14).Scalar = "" :=
  ⟨(new_point_from_number_bit_mask 16 0 (by decide) (by decide) (by decide)).1,
   (new_point_from_number_bit_mask 16 0 (by decide) (by decide) (by decide)).2.1 14 (by decide)⟩

/-- Witness for C5 at concrete actions a, b, c, d. -/
theorem flatten_inlines_referenced_pipe_witness :
    nuggit.FlattenEval ⟨[("Q", ⟨[⟨"c", []⟩, ⟨"d", []⟩], default⟩)]⟩
      ⟨[⟨"a", []⟩, nuggit.pipeRef "Q", ⟨"b", []⟩], default⟩
      (⟨[⟨"a", []⟩, ⟨"c", []⟩, ⟨"d", []⟩, ⟨"b", []⟩], default⟩, none) :=
  flatten_inlines_referenced_pipe ⟨"a", []⟩ ⟨"b", []⟩ ⟨"c", []⟩ ⟨"d", []⟩ default default
    ⟨[("Q", ⟨[⟨"c", []⟩, ⟨"d", []⟩], default⟩)]⟩
    (by decide) (by decide) (by decide) (by decide) (by decide)

/-- Witness for C9: flattening a one-action pipe stored at heap
reference 0 leaves the array at reference 0 unchanged. -/
theorem flatten_does_not_mutate_input_witness :
    (Heap.mk [[⟨"a", []⟩], [⟨"a", []⟩]]).get 0 = (Heap.mk [[⟨"a", []⟩]]).get 0 ∧
    ((none : Option Err).isSome → (⟨[⟨"a", []⟩], default⟩ : nuggit.Pipe) = default) :=
  flatten_does_not_mutate_input 3 ⟨[]⟩ ⟨[[⟨"a", []⟩]]⟩ 0 default
    (⟨[[⟨"a", []⟩], [⟨"a", []⟩]]⟩, ⟨[⟨"a", []⟩], default⟩, none) (by decide) (by decide)

/-- Witness for C6: with every statement failing, the store returns the
empty database unchanged; with no failures and a pre-existing (x, d) row,
it returns the database unchanged plus the AlreadyExists error. -/
theorem pipe_store_atomic_and_duplicate_witness :
    (PipeStore.Store (fun _ => true) ⟨[], [], []⟩ ⟨"x", "d", ⟨[], default⟩⟩).1 = ⟨[], [], []⟩ ∧
    ((PipeStore.Store (fun _ => false) ⟨[⟨"x", "d", 0, ⟨[], default⟩⟩], [], []⟩
        ⟨"x", "d", ⟨[], default⟩⟩).1 = ⟨[⟨"x", "d", 0, ⟨[], default⟩⟩], [], []⟩ ∧
      ∃ m, (PipeStore.Store (fun _ => false) ⟨[⟨"x", "d", 0, ⟨[], default⟩⟩], [], []⟩
        ⟨"x", "d", ⟨[], default⟩⟩).2 = some ⟨.alreadyExists, m⟩) :=
  ⟨(pipe_store_atomic_and_duplicate (fun _ => true) ⟨[], [], []⟩ ⟨"x", "d", ⟨[], default⟩⟩).1
      (by decide),
   (pipe_store_atomic_and_duplicate (fun _ => false) ⟨[⟨"x", "d", 0, ⟨[], default⟩⟩], [], []⟩
      ⟨"x", "d", ⟨[], default⟩⟩).2 (fun _ => rfl) (by decide)⟩
